import Mathlib

/-!
# warm-waters: the cluster-warming program of `kubernetes_clusters.go`

A shallow embedding of the Go program. Every goroutine (the main goroutine
running `main`/`warming`, one goroutine per context running the closure around
`warmClusterConnection`, and the goroutine running `signalShutdownHandler`) is a
small machine whose steps emit effects on the shared state (the `WaitGroup`
counter, the cancellation of `ctx`, the process exit status). The program is the
interleaving of these machines: a schedule is a list of actions, each naming the
goroutine that moves and, for a goroutine blocked in a receive, the event that
wakes it.

The libraries the program calls (`os.Getenv`, `homedir.Expand`,
`clientcmd.LoadFromFile`, the `clientcmd` client-config chain,
`kubernetes.NewForConfig`, the `Nodes().List` call) are external: their results
are inputs of the model (`World`, and the outcome carried by a tick event).
-/

namespace WarmWaters

/-! ## Data model -/

/-- A non-nil Go `error`, represented by its message (`err.Error()`). A Go value
of type `error` is an `Option GoError`, `none` being `nil`. -/
abbrev GoError := String

/-- The `*rest.Config` derived for one context. -/
structure RestConfig where
  host : String
deriving DecidableEq, Repr

/-- The `*api.Config` loaded from the kubeconfig file: the keys of its `Contexts`
map, in the order in which the `range` of `warming` visits them (keys of a map
are distinct; the order is arbitrary). -/
structure ApiConfig where
  contexts : List String
deriving DecidableEq, Repr

/-- The `*kubernetes.Clientset` built by `kubernetes.NewForConfig`. -/
structure Clientset where
  config : RestConfig
deriving DecidableEq, Repr

/-- The external collaborators of the program. -/
structure World where
  /-- The process environment (`os.LookupEnv`). -/
  lookupEnv : String → Option String
  /-- The library call `homedir.Expand`. -/
  homedirExpand : String → Except GoError String
  /-- The library call `clientcmd.LoadFromFile`. -/
  loadFromFile : String → Except GoError ApiConfig
  /-- The chain `clientcmd.NewNonInteractiveClientConfig(...).ClientConfig()`. -/
  clientConfig : ApiConfig → String → Except GoError RestConfig
  /-- The library call `kubernetes.NewForConfig`. -/
  newForConfig : RestConfig → Except GoError Clientset

/-- Levels of the logrus calls the program makes. -/
inductive Level where
  | info
  | warn
  | fatal
deriving DecidableEq, Repr

/-- What a step of a goroutine does to the world outside the goroutine. -/
inductive Effect where
  /-- A log line: `log.Info`, `log.WithError(err).Warn`, ... -/
  | log (level : Level) (msg : String) (err : Option GoError)
  /-- The call `wg.Add(delta)`; `wg.Done()` is `wg.Add(-1)`. -/
  | wgAdd (delta : Int)
  /-- The call `cancelFunction()`: `ctx` becomes done. -/
  | cancel
  /-- The call `os.Exit(code)`, or `main` returning (`code = 0`). -/
  | exit (code : Nat)
  /-- The statement `go func() { ... }()` of `warming`, with the variables
  `kubeContext` and `config` the closure captures. -/
  | spawn (kubeContext : String) (config : RestConfig)
  /-- The statement `go signalShutdownHandler(cancel)` of `main`. -/
  | spawnHandler
  /-- The call `client.CoreV1().Nodes().List(ctx, ...)` for a context. -/
  | probe (context : String)
  /-- The call `time.NewTicker(secs * time.Second)`. -/
  | newTicker (secs : Nat)
  /-- The call `signal.Notify(sig, ...)`. -/
  | notify
  /-- The call `time.After(secs * time.Second)`. -/
  | armTimer (secs : Nat)
deriving DecidableEq, Repr

/-- Whether an effect is a probe call. -/
def Effect.isProbe : Effect → Bool
  | .probe _ => true
  | _ => false

/-- Whether an effect terminates the process. -/
def Effect.isExit : Effect → Bool
  | .exit _ => true
  | _ => false

/-! ## `findKubeConfig`, `getKubeConfig`, `getClientConfigWithContext` -/

/-- The library call `os.Getenv`: the value of the variable, empty when it is
not set. -/
def osGetenv (w : World) (key : String) : String :=
  (w.lookupEnv key).getD ""

/-- The function `findKubeConfig`. -/
def findKubeConfig (w : World) : Except GoError String :=
  let env := osGetenv w "KUBECONFIG"
  if env ≠ "" then
    .ok env
  else
    match w.homedirExpand "~/.kube/config" with
    | .error err => .error err
    | .ok path => .ok path

/-- The function `getKubeConfig`. -/
def getKubeConfig (w : World) : Except GoError ApiConfig :=
  match findKubeConfig w with
  | .error err => .error err
  | .ok kubeConfigPath => w.loadFromFile kubeConfigPath

/-- The function `getClientConfigWithContext`. -/
def getClientConfigWithContext (w : World) (kubeConfig : ApiConfig)
    (kubeContext : String) : Except GoError RestConfig :=
  w.clientConfig kubeConfig kubeContext

/-! ## `warmClusterConnection` -/

/-- The call `errors.Wrapf(err, format, args...)` on a non-nil `err`: the
formatted message, a colon, and the message of the cause. -/
def wrapf (err : GoError) (formatted : String) : GoError :=
  formatted ++ ": " ++ err

/-- Where a run of `warmClusterConnection` stands. -/
inductive LoopPc where
  /-- The function has been called and has not run yet. -/
  | entry
  /-- Blocked in the `select` of the `for` loop, holding the client. -/
  | selecting (client : Clientset)
  /-- The function has returned `err`. -/
  | returned (err : Option GoError)
deriving DecidableEq, Repr

/-- What wakes the `select` of `warmClusterConnection`. -/
inductive LoopEvent where
  /-- The case `<-ticker.C`, with the error returned by the `Nodes().List` call
  made in that case. -/
  | tick (probeErr : Option GoError)
  /-- The case `<-ctx.Done()`. -/
  | ctxDone
deriving DecidableEq, Repr

/-- Lines 93 to 100 of `warmClusterConnection`: the log line, the ticker, and
the construction of the client. -/
def loopEnter (w : World) (context : String) (config : RestConfig) :
    LoopPc × List Effect :=
  let effs := [Effect.log .info ("warming " ++ context) none, Effect.newTicker 5]
  match w.newForConfig config with
  | .error err =>
    (.returned (some (wrapf err ("failed to create kube client for context: " ++ context))),
      effs)
  | .ok client => (.selecting client, effs)

/-- One iteration of the `for`/`select` of `warmClusterConnection`. -/
def loopSelect (context : String) (client : Clientset) :
    LoopEvent → LoopPc × List Effect
  | .tick none => (.selecting client, [.probe context])
  | .tick (some err) =>
    (.selecting client,
      [.probe context, .log .warn ("failed to contact cluster: " ++ context) (some err)])
  | .ctxDone => (.returned none, [])

/-- The `for` loop of `warmClusterConnection`, run against the sequence of events
that wake its `select`. The result is `none` when the events end while the loop
is still blocked in the `select`. -/
def selectLoop (context : String) (client : Clientset) :
    List LoopEvent → Option (Option GoError × List Effect)
  | [] => none
  | ev :: evs =>
    match loopSelect context client ev with
    | (.returned err, effs) => some (err, effs)
    | (.selecting c, effs) =>
      match selectLoop context c evs with
      | none => none
      | some (err, rest) => some (err, effs ++ rest)
    | (.entry, _) => none

/-- The function `warmClusterConnection`, run against the sequence of events that
wake its `select`: the error it returns and the effects it performed, or `none`
when it has not returned by the end of the events. -/
def warmClusterConnection (w : World) (context : String) (config : RestConfig)
    (events : List LoopEvent) : Option (Option GoError × List Effect) :=
  match loopEnter w context config with
  | (.returned err, effs) => some (err, effs)
  | (.selecting client, effs) =>
    match selectLoop context client events with
    | none => none
    | some (err, rest) => some (err, effs ++ rest)
  | (.entry, _) => none

/-- The number of probe calls among some effects. -/
def probeCount (effs : List Effect) : Nat :=
  (effs.filter Effect.isProbe).length

/-! ## The goroutine spawned by `warming` for one context -/

/-- Where the goroutine `go func() { ... }()` of `warming` stands. -/
inductive TaskPc where
  /-- The goroutine has been created by the `go` statement and has not yet
  executed its first statement, `wg.Add(1)`. -/
  | spawned
  /-- After `wg.Add(1)`: inside the call of `warmClusterConnection`. -/
  | calling (l : LoopPc)
  /-- After `wg.Done()`: the goroutine has terminated. -/
  | finished
deriving DecidableEq, Repr

/-- One goroutine spawned by `warming`, with the two variables its closure
captures. -/
structure Task where
  kubeContext : String
  config : RestConfig
  pc : TaskPc
deriving DecidableEq, Repr

/-- Lines 51 to 54 of `warming`, run by the goroutine once
`warmClusterConnection` has returned `err`. -/
def taskFinish (err : Option GoError) : List Effect :=
  match err with
  | some e => [.log .warn "fatal error warming cluster" (some e), .wgAdd (-1)]
  | none => [.wgAdd (-1)]

/-- One step of the goroutine of a context. With `none` the goroutine runs its
next statements up to the next blocking point; with `some ev` its `select` is
woken by `ev`, the case `<-ctx.Done()` being possible only once `ctx` is
cancelled. The result is `none` when the step is not possible. -/
def taskStep (w : World) (cancelled : Bool) (t : Task) :
    Option LoopEvent → Option (TaskPc × List Effect)
  | none =>
    match t.pc with
    | .spawned => some (.calling .entry, [.wgAdd 1])
    | .calling .entry =>
      some (.calling (loopEnter w t.kubeContext t.config).1,
        (loopEnter w t.kubeContext t.config).2)
    | .calling (.returned err) => some (.finished, taskFinish err)
    | .calling (.selecting _) => none
    | .finished => none
  | some ev =>
    match t.pc with
    | .calling (.selecting client) =>
      if ev = .ctxDone ∧ cancelled = false then none
      else
        some (.calling (loopSelect t.kubeContext client ev).1,
          (loopSelect t.kubeContext client ev).2)
    | _ => none

/-! ## `signalShutdownHandler` -/

/-- Where the goroutine running `signalShutdownHandler` stands. -/
inductive HandlerPc where
  /-- The goroutine has been created and has not run yet. -/
  | created
  /-- After `signal.Notify`: blocked in `<-sig`. -/
  | listening
  /-- After `cancelFunction()`: blocked in `<-time.After(5 * time.Second)`. -/
  | cancelling
  /-- After `os.Exit(1)`. -/
  | forceExit
deriving DecidableEq, Repr

/-- What wakes `signalShutdownHandler`. -/
inductive HandlerEvent where
  /-- One of the signals registered with `signal.Notify` arrives on `sig`. -/
  | signal
  /-- The channel of `time.After(5 * time.Second)` fires. -/
  | deadline
deriving DecidableEq, Repr

/-- One step of `signalShutdownHandler`. With `none` the goroutine runs up to its
first receive; with `some ev` the receive it is blocked in is woken by `ev`. The
result is `none` when the step is not possible. -/
def handlerStep : HandlerPc → Option HandlerEvent → Option (HandlerPc × List Effect)
  | .created, none => some (.listening, [.notify])
  | .listening, some .signal => some (.cancelling, [.cancel, .armTimer 5])
  | .cancelling, some .deadline =>
    some (.forceExit, [.log .info "shutting down..." none, .exit 1])
  | _, _ => none

/-- The function `signalShutdownHandler` from its first receive on, run against a
sequence of events: the state reached and the effects performed. An event that
cannot wake the receive the function is blocked in is left unconsumed. -/
def handlerRun : HandlerPc → List HandlerEvent → HandlerPc × List Effect
  | pc, [] => (pc, [])
  | pc, ev :: evs =>
    match handlerStep pc (some ev) with
    | none => handlerRun pc evs
    | some (pc2, effs) => ((handlerRun pc2 evs).1, effs ++ (handlerRun pc2 evs).2)

/-! ## The main goroutine: `main` and `warming` -/

/-- Where the main goroutine stands. -/
inductive CoordPc where
  /-- At the start of `main`. -/
  | start
  /-- In `warming`, before `getKubeConfig()`. -/
  | loading
  /-- In the `for ... range kubeConfig.Contexts` of `warming`, with the context
  names still to visit. -/
  | ranging (kubeConfig : ApiConfig) (rest : List String)
  /-- At `wg.Wait()`. -/
  | waiting
  /-- After `wg.Wait()` has returned: `warming` returns to `main`. -/
  | joined
  /-- After `main` has returned. -/
  | returned
  /-- After a `log....Fatal` call of `warming`. -/
  | fatal
deriving DecidableEq, Repr

/-- One step of the main goroutine: its next statements up to the next
interaction with the other goroutines. It reads the `WaitGroup` counter at
`wg.Wait()`, which returns only when the counter is zero. The result is `none`
when the step is not possible. -/
def coordStep (w : World) (wg : Int) : CoordPc → Option (CoordPc × List Effect)
  | .start => some (.loading, [.log .info "starting..." none, .spawnHandler])
  | .loading =>
    match getKubeConfig w with
    | .error err =>
      some (.fatal, [.log .fatal "failed to get kubeconfig" (some err), .exit 1])
    | .ok kubeConfig => some (.ranging kubeConfig kubeConfig.contexts, [])
  | .ranging _ [] => some (.waiting, [])
  | .ranging kubeConfig (kc :: rest) =>
    match getClientConfigWithContext w kubeConfig kc with
    | .error err =>
      some (.fatal, [.log .fatal "failed to create client config" (some err), .exit 1])
    | .ok config => some (.ranging kubeConfig rest, [.spawn kc config])
  | .waiting => if wg = 0 then some (.joined, []) else none
  | .joined => some (.returned, [.log .info "shutting down..." none, .exit 0])
  | .returned => none
  | .fatal => none

/-! ## The program: the interleaving of its goroutines -/

/-- The state of the process. -/
structure Sys where
  /-- The main goroutine. -/
  coord : CoordPc
  /-- The goroutine of `signalShutdownHandler`, once spawned. -/
  handler : Option HandlerPc
  /-- The goroutines spawned by `warming`, in the order of their `go` statements. -/
  tasks : List Task
  /-- The counter of the `WaitGroup` `wg`. -/
  wg : Int
  /-- Whether `ctx` has been cancelled. -/
  cancelled : Bool
  /-- The exit status, once the process has terminated. -/
  exit : Option Nat
  /-- Every effect performed so far, oldest first. -/
  trace : List Effect
deriving DecidableEq, Repr

/-- The state of the process when `main` starts. -/
def Sys.init : Sys :=
  { coord := .start, handler := none, tasks := [], wg := 0, cancelled := false,
    exit := none, trace := [] }

/-- What one effect does to the state of the process. -/
def applyEffect (s : Sys) (e : Effect) : Sys :=
  match e with
  | .wgAdd delta => { s with wg := s.wg + delta, trace := s.trace ++ [e] }
  | .cancel => { s with cancelled := true, trace := s.trace ++ [e] }
  | .exit code => { s with exit := some code, trace := s.trace ++ [e] }
  | .spawn kc config =>
    { s with tasks := s.tasks ++ [⟨kc, config, .spawned⟩], trace := s.trace ++ [e] }
  | .spawnHandler => { s with handler := some .created, trace := s.trace ++ [e] }
  | _ => { s with trace := s.trace ++ [e] }

/-- The effects of one step, applied in order. -/
def applyEffects (s : Sys) (effs : List Effect) : Sys :=
  effs.foldl applyEffect s

/-- A scheduling decision: which goroutine moves, and what wakes it. -/
inductive Action where
  /-- The main goroutine takes its next step. -/
  | coord
  /-- The goroutine of the `i`-th `go` statement of `warming` takes a step. -/
  | task (i : Nat) (ev : Option LoopEvent)
  /-- The goroutine of `signalShutdownHandler` takes a step. -/
  | handler (ev : Option HandlerEvent)
deriving DecidableEq, Repr

/-- One step of the process. The result is `none` when the process has
terminated or the goroutine named cannot take the step. -/
def step (w : World) (s : Sys) (a : Action) : Option Sys :=
  if s.exit.isSome then none
  else
    match a with
    | .coord =>
      match coordStep w s.wg s.coord with
      | none => none
      | some (pc, effs) => some (applyEffects { s with coord := pc } effs)
    | .task i ev =>
      match s.tasks[i]? with
      | none => none
      | some t =>
        match taskStep w s.cancelled t ev with
        | none => none
        | some (pc, effs) =>
          some (applyEffects { s with tasks := s.tasks.set i { t with pc := pc } } effs)
    | .handler ev =>
      match s.handler with
      | none => none
      | some h =>
        match handlerStep h ev with
        | none => none
        | some (pc, effs) => some (applyEffects { s with handler := some pc } effs)

/-- A schedule run from a state: `none` when one of its actions is not possible. -/
def run (w : World) (s : Sys) : List Action → Option Sys
  | [] => some s
  | a :: as =>
    match step w s a with
    | none => none
    | some s2 => run w s2 as

/-- The states the process can reach from the start of `main`. -/
def Reachable (w : World) (s : Sys) : Prop :=
  ∃ sched : List Action, run w Sys.init sched = some s

/-- A world for examples: `KUBECONFIG` is not set, the home directory is `/root`,
the kubeconfig file holds the given context names, of which those listed in
`badConfig` have no derivable client config and those listed in `badClient` have
no constructible client. -/
def exampleWorld (contexts badConfig badClient : List String) : World :=
  { lookupEnv := fun _ => none
    homedirExpand := fun _ => .ok "/root/.kube/config"
    loadFromFile := fun _ => .ok ⟨contexts⟩
    clientConfig := fun _ kc =>
      if kc ∈ badConfig then .error ("no such context: " ++ kc) else .ok ⟨kc⟩
    newForConfig := fun config =>
      if config.host ∈ badClient then .error "bad host" else .ok ⟨config⟩ }

/-! ## Definitions used by the statements -/

/-- A state for examples, reached in `exampleWorld ["b"] [] ["b"]` by the schedule
`[.coord, .coord, .coord, .task 0 none, .task 0 none]`: the goroutine of context
`b` is back from `warmClusterConnection` with a construction error. -/
def exampleFailedTaskState : Sys :=
  { coord := .ranging ⟨["b"]⟩ []
    handler := some .created
    tasks := [⟨"b", ⟨"b"⟩, .calling (.returned
      (some "failed to create kube client for context: b: bad host"))⟩]
    wg := 1
    cancelled := false
    exit := none
    trace := [.log .info "starting..." none, .spawnHandler, .spawn "b" ⟨"b"⟩, .wgAdd 1,
      .log .info "warming b" none, .newTicker 5] }

/-- The two variables captured by the closure of a goroutine: the arguments with
which it calls `warmClusterConnection`. -/
def Task.launch (t : Task) : String × RestConfig :=
  (t.kubeContext, t.config)

/-- The goroutines launched so far, as the pairs of variables they captured. -/
def Sys.launches (s : Sys) : List (String × RestConfig) :=
  s.tasks.map Task.launch

/-- The launches are those of the context names `names`, in order, each with the
client config derived from its own name. -/
def LaunchedFor (w : World) (kubeConfig : ApiConfig) (names : List String)
    (launches : List (String × RestConfig)) : Prop :=
  launches.map Prod.fst = names ∧
  ∀ p ∈ launches, getClientConfigWithContext w kubeConfig p.1 = .ok p.2

/-- What holds of the launches once `warming` has ended in a `Fatal` call: either
the kubeconfig could not be loaded and nothing was launched, or the derivation
failed for one context and exactly the contexts visited before it were
launched. -/
def StartupFatal (w : World) (launches : List (String × RestConfig)) : Prop :=
  ((∃ err, getKubeConfig w = .error err) ∧ launches = []) ∨
  ∃ kubeConfig pre kc post err,
    getKubeConfig w = .ok kubeConfig ∧ kubeConfig.contexts = pre ++ kc :: post ∧
    getClientConfigWithContext w kubeConfig kc = .error err ∧
    LaunchedFor w kubeConfig pre launches

/-- The invariant of the main goroutine: what has been launched at each of its
program points, and the exit status once it has ended. -/
def CoordInv (w : World) (s : Sys) : Prop :=
  match s.coord with
  | .start => s.launches = []
  | .loading => s.launches = []
  | .ranging kubeConfig rest =>
    getKubeConfig w = .ok kubeConfig ∧
    ∃ pre, kubeConfig.contexts = pre ++ rest ∧ LaunchedFor w kubeConfig pre s.launches
  | .waiting =>
    ∃ kubeConfig, getKubeConfig w = .ok kubeConfig ∧
      LaunchedFor w kubeConfig kubeConfig.contexts s.launches
  | .joined =>
    ∃ kubeConfig, getKubeConfig w = .ok kubeConfig ∧
      LaunchedFor w kubeConfig kubeConfig.contexts s.launches
  | .returned =>
    s.exit = some 0 ∧
    ∃ kubeConfig, getKubeConfig w = .ok kubeConfig ∧
      LaunchedFor w kubeConfig kubeConfig.contexts s.launches
  | .fatal => s.exit = some 1 ∧ StartupFatal w s.launches

/-- The invariant of the process. -/
def Inv (w : World) (s : Sys) : Prop :=
  CoordInv w s ∧ (s.tasks = [] → s.wg = 0)

/-- The effects that touch neither the goroutines nor the exit status nor the
cancellation: those a goroutine spawned by `warming` performs. -/
def Effect.isLocal : Effect → Bool
  | .log _ _ _ => true
  | .wgAdd _ => true
  | .probe _ => true
  | .newTicker _ => true
  | _ => false

/-- A state for examples, reached in `exampleWorld ["a", "b"] ["b"] []` by four
steps of the main goroutine: the goroutine of `a` has been launched, and the
derivation of the client config of `b` has failed. -/
def exampleFatalState : Sys :=
  { coord := .fatal
    handler := some .created
    tasks := [⟨"a", ⟨"a"⟩, .spawned⟩]
    wg := 0
    cancelled := false
    exit := some 1
    trace := [.log .info "starting..." none, .spawnHandler, .spawn "a" ⟨"a"⟩,
      .log .fatal "failed to create client config" (some "no such context: b"), .exit 1] }

/-! ## Frame lemmas: what a step leaves unchanged -/

/-- Local effects change only the counter and the trace. -/
theorem applyEffects_local (effs : List Effect) (s : Sys)
    (hlocal : ∀ e ∈ effs, e.isLocal = true) :
    (applyEffects s effs).coord = s.coord ∧ (applyEffects s effs).tasks = s.tasks ∧
    (applyEffects s effs).exit = s.exit ∧ (applyEffects s effs).handler = s.handler ∧
    (applyEffects s effs).cancelled = s.cancelled := by
  induction effs generalizing s with
  | nil => exact ⟨rfl, rfl, rfl, rfl, rfl⟩
  | cons e es ih =>
    have he : e.isLocal = true := hlocal e (List.mem_cons_self _ _)
    have hes := ih (applyEffect s e) (fun x hx => hlocal x (List.mem_cons_of_mem _ hx))
    have hcons : applyEffects s (e :: es) = applyEffects (applyEffect s e) es := rfl
    rw [hcons]
    cases e <;> simp [Effect.isLocal] at he <;> simpa [applyEffect] using hes

/-- Every effect of a step of a goroutine spawned by `warming` is local. -/
theorem taskStep_local (w : World) (c : Bool) (t : Task) (ev : Option LoopEvent)
    (pc : TaskPc) (effs : List Effect) (hstep : taskStep w c t ev = some (pc, effs)) :
    ∀ e ∈ effs, e.isLocal = true := by
  intro x hmem
  rcases t with ⟨kc, cfg, tpc⟩
  cases ev with
  | none =>
    cases tpc with
    | spawned =>
      simp only [taskStep, Option.some.injEq, Prod.mk.injEq] at hstep
      obtain ⟨-, rfl⟩ := hstep
      simp at hmem
      subst hmem
      rfl
    | finished => simp [taskStep] at hstep
    | calling l =>
      cases l with
      | entry =>
        simp only [taskStep, Option.some.injEq, Prod.mk.injEq] at hstep
        obtain ⟨-, rfl⟩ := hstep
        simp only [loopEnter] at hmem
        split at hmem <;> simp at hmem <;> rcases hmem with rfl | rfl <;> rfl
      | selecting c2 => simp [taskStep] at hstep
      | returned e =>
        simp only [taskStep, Option.some.injEq, Prod.mk.injEq] at hstep
        obtain ⟨-, rfl⟩ := hstep
        cases e <;> simp [taskFinish] at hmem
        · subst hmem; rfl
        · rcases hmem with rfl | rfl <;> rfl
  | some ev =>
    cases tpc with
    | spawned => simp [taskStep] at hstep
    | finished => simp [taskStep] at hstep
    | calling l =>
      cases l with
      | entry => simp [taskStep] at hstep
      | returned e => simp [taskStep] at hstep
      | selecting c2 =>
        simp only [taskStep] at hstep
        split at hstep
        · cases hstep
        · simp only [Option.some.injEq, Prod.mk.injEq] at hstep
          obtain ⟨-, rfl⟩ := hstep
          cases ev with
          | ctxDone => simp [loopSelect] at hmem
          | tick o =>
            cases o <;> simp [loopSelect] at hmem
            · subst hmem; rfl
            · rcases hmem with rfl | rfl <;> rfl

/-- Replacing an element of a list by one with the same image leaves the images
unchanged. -/
theorem map_set_same {α β : Type} (f : α → β) (l : List α) (i : Nat) (a b : α)
    (hget : l[i]? = some a) (hf : f b = f a) : (l.set i b).map f = l.map f := by
  induction l generalizing i with
  | nil => rfl
  | cons x xs ih =>
    cases i with
    | zero =>
      simp only [List.getElem?_cons_zero, Option.some.injEq] at hget
      subst hget
      simp [hf]
    | succ j =>
      simp only [List.getElem?_cons_succ] at hget
      simp [ih j hget]

/-- A step of a goroutine spawned by `warming` changes neither the main goroutine,
nor the handler, nor the exit status, nor what has been launched. -/
theorem step_task_frame (w : World) (s s2 : Sys) (i : Nat) (ev : Option LoopEvent)
    (hstep : step w s (.task i ev) = some s2) :
    s2.coord = s.coord ∧ s2.exit = s.exit ∧ s2.handler = s.handler ∧
    s2.cancelled = s.cancelled ∧ s2.launches = s.launches ∧ s2.tasks ≠ [] ∧
    s.tasks ≠ [] := by
  simp only [step] at hstep
  split at hstep
  · cases hstep
  · cases hget : s.tasks[i]? with
    | none => simp [hget] at hstep
    | some t =>
      simp only [hget] at hstep
      cases hts : taskStep w s.cancelled t ev with
      | none => simp [hts] at hstep
      | some r =>
        obtain ⟨pc, effs⟩ := r
        simp only [hts, Option.some.injEq] at hstep
        subst hstep
        obtain ⟨h1, h2, h3, h4, h5⟩ := applyEffects_local effs
          { s with tasks := s.tasks.set i { t with pc := pc } }
          (taskStep_local w s.cancelled t ev pc effs hts)
        have hne : s.tasks ≠ [] := by
          intro h
          rw [h] at hget
          simp at hget
        refine ⟨h1, h3, h4, h5, ?_, ?_, hne⟩
        · simp only [Sys.launches, h2]
          exact map_set_same Task.launch s.tasks i t _ hget rfl
        · rw [h2]
          intro h
          apply hne
          have hlen := congrArg List.length h
          simpa using hlen

/-- A step of the handler changes neither the main goroutine, nor the goroutines
spawned by `warming`, nor the counter. -/
theorem step_handler_frame (w : World) (s s2 : Sys) (ev : Option HandlerEvent)
    (hstep : step w s (.handler ev) = some s2) :
    s2.coord = s.coord ∧ s2.tasks = s.tasks ∧ s2.wg = s.wg ∧ s.exit = none := by
  simp only [step] at hstep
  split at hstep
  · cases hstep
  · rename_i hexit
    have hnone : s.exit = none := by
      cases h : s.exit with
      | none => rfl
      | some c => simp [h] at hexit
    cases hh : s.handler with
    | none => simp [hh] at hstep
    | some h =>
      simp only [hh] at hstep
      cases h <;> rcases ev with _ | ev <;> try cases ev
      all_goals simp [handlerStep] at hstep
      all_goals subst hstep
      all_goals exact ⟨rfl, rfl, rfl, hnone⟩

/-! ## The invariant -/

/-- The invariant holds when `main` starts. -/
theorem inv_init (w : World) : Inv w Sys.init :=
  ⟨rfl, fun _ => rfl⟩

/-- A step of the main goroutine keeps the invariant. -/
theorem inv_step_coord (w : World) (s s2 : Sys) (hinv : Inv w s)
    (hstep : step w s .coord = some s2) : Inv w s2 := by
  obtain ⟨hcoord, hwg⟩ := hinv
  rcases s with ⟨coord, handler, tasks, wg, cancelled, exit, trace⟩
  simp only [step] at hstep
  split at hstep
  · cases hstep
  · cases coord with
    | start =>
      simp only [coordStep, Option.some.injEq] at hstep
      subst hstep
      exact ⟨hcoord, hwg⟩
    | loading =>
      simp only [CoordInv, Sys.launches, List.map_eq_nil_iff] at hcoord
      cases hg : getKubeConfig w with
      | error err =>
        simp only [coordStep, hg, Option.some.injEq] at hstep
        subst hstep
        refine ⟨⟨rfl, Or.inl ⟨⟨err, hg⟩, ?_⟩⟩, hwg⟩
        simp [applyEffects, applyEffect, Sys.launches, hcoord]
      | ok kubeConfig =>
        simp only [coordStep, hg, Option.some.injEq] at hstep
        subst hstep
        refine ⟨⟨hg, [], rfl, ?_⟩, hwg⟩
        simp [applyEffects, LaunchedFor, Sys.launches, hcoord]
    | ranging kubeConfig rest =>
      obtain ⟨hg, pre, hpre, hl⟩ := hcoord
      cases rest with
      | nil =>
        simp only [coordStep, Option.some.injEq] at hstep
        subst hstep
        refine ⟨⟨kubeConfig, hg, ?_⟩, hwg⟩
        rw [hpre, List.append_nil]
        exact hl
      | cons kc rest =>
        cases hd : getClientConfigWithContext w kubeConfig kc with
        | error err =>
          simp only [coordStep, hd, Option.some.injEq] at hstep
          subst hstep
          exact ⟨⟨rfl, Or.inr ⟨kubeConfig, pre, kc, rest, err, hg, hpre, hd, hl⟩⟩, hwg⟩
        | ok config =>
          simp only [coordStep, hd, Option.some.injEq] at hstep
          subst hstep
          refine ⟨⟨hg, pre ++ [kc], by simp [hpre], ?_, ?_⟩, ?_⟩
          · have h1 := hl.1
            simp only [Sys.launches] at h1
            simp [applyEffects, applyEffect, Sys.launches, Task.launch, h1]
          · intro p hp
            simp only [applyEffects, applyEffect, Sys.launches, List.foldl_cons, List.foldl_nil,
              List.map_append, List.map_cons, List.map_nil, List.mem_append,
              List.mem_singleton] at hp
            rcases hp with hp | rfl
            · exact hl.2 p hp
            · exact hd
          · intro h
            simp [applyEffects, applyEffect] at h
    | waiting =>
      by_cases hz : wg = 0
      · simp only [coordStep, hz, if_true, Option.some.injEq] at hstep
        subst hstep
        exact ⟨hcoord, fun _ => rfl⟩
      · simp [coordStep, hz] at hstep
    | joined =>
      simp only [coordStep, Option.some.injEq] at hstep
      subst hstep
      exact ⟨⟨rfl, hcoord⟩, hwg⟩
    | returned => simp [coordStep] at hstep
    | fatal => simp [coordStep] at hstep

/-- Every step keeps the invariant. -/
theorem inv_step (w : World) (s s2 : Sys) (a : Action) (hinv : Inv w s)
    (hstep : step w s a = some s2) : Inv w s2 := by
  cases a with
  | coord => exact inv_step_coord w s s2 hinv hstep
  | task i ev =>
    obtain ⟨hcoord, hexit, -, -, hlaunch, hne, -⟩ := step_task_frame w s s2 i ev hstep
    refine ⟨?_, fun h => absurd h hne⟩
    have h := hinv.1
    simp only [CoordInv, hcoord, hexit, hlaunch] at h ⊢
    exact h
  | handler ev =>
    obtain ⟨hcoord, htasks, hwg, hexit⟩ := step_handler_frame w s s2 ev hstep
    refine ⟨?_, fun h => by rw [hwg]; exact hinv.2 (htasks ▸ h)⟩
    have h := hinv.1
    have hl : s2.launches = s.launches := by simp only [Sys.launches, htasks]
    simp only [CoordInv, hcoord, hl] at h ⊢
    cases hc : s.coord with
    | returned =>
      simp only [hc] at h
      rw [hexit] at h
      cases h.1
    | fatal =>
      simp only [hc] at h
      rw [hexit] at h
      cases h.1
    | start => simpa only [hc] using h
    | loading => simpa only [hc] using h
    | ranging kubeConfig rest => simpa only [hc] using h
    | waiting => simpa only [hc] using h
    | joined => simpa only [hc] using h

/-- A schedule keeps the invariant. -/
theorem inv_run (w : World) (sched : List Action) (s s2 : Sys) (hinv : Inv w s)
    (hrun : run w s sched = some s2) : Inv w s2 := by
  induction sched generalizing s with
  | nil =>
    simp only [run, Option.some.injEq] at hrun
    exact hrun ▸ hinv
  | cons a as ih =>
    simp only [run] at hrun
    cases hstep : step w s a with
    | none => simp [hstep] at hrun
    | some s1 =>
      simp only [hstep] at hrun
      exact ih s1 (inv_step w s s1 a hinv hstep) hrun

/-- The invariant holds in every state the process reaches. -/
theorem inv_reachable (w : World) (s : Sys) (hreach : Reachable w s) : Inv w s := by
  obtain ⟨sched, hrun⟩ := hreach
  exact inv_run w sched Sys.init s (inv_init w) hrun

/-! ## `findKubeConfig` -/

/-- C9: `findKubeConfig` returns the value of `KUBECONFIG` unchanged and without
error whenever it is non-empty, whatever `homedir.Expand` would answer (the home
directory is not consulted); when the variable is unset or empty it returns
exactly what `homedir.Expand("~/.kube/config")` returns, the path or the error. -/
theorem findKubeConfig_spec (w : World) :
    (∀ env : String, w.lookupEnv "KUBECONFIG" = some env → env ≠ "" →
      findKubeConfig w = .ok env ∧
      ∀ expand : String → Except GoError String,
        findKubeConfig { w with homedirExpand := expand } = .ok env) ∧
    (w.lookupEnv "KUBECONFIG" = none ∨ w.lookupEnv "KUBECONFIG" = some "" →
      findKubeConfig w = w.homedirExpand "~/.kube/config" ∧
      (∀ err, findKubeConfig w = .error err ↔
        w.homedirExpand "~/.kube/config" = .error err)) := by
  refine ⟨?_, ?_⟩
  · intro env henv hne
    refine ⟨?_, fun expand => ?_⟩ <;> simp [findKubeConfig, osGetenv, henv, hne]
  · intro h
    have hfind : findKubeConfig w = w.homedirExpand "~/.kube/config" := by
      rcases h with h | h
      · simp only [findKubeConfig, osGetenv, h, Option.getD_none, ne_eq, not_true_eq_false,
          if_false]
        cases w.homedirExpand "~/.kube/config" <;> rfl
      · simp only [findKubeConfig, osGetenv, h, Option.getD_some, ne_eq, not_true_eq_false,
          if_false]
        cases w.homedirExpand "~/.kube/config" <;> rfl
    exact ⟨hfind, fun err => by rw [hfind]⟩

/-- Witness for C9: with `KUBECONFIG=/tmp/kc` the override is returned although
the home directory cannot be expanded; with `KUBECONFIG` unset the expansion
`/root/.kube/config` is returned. -/
theorem findKubeConfig_spec_witness :
    findKubeConfig
      { exampleWorld [] [] [] with
        lookupEnv := fun k => if k = "KUBECONFIG" then some "/tmp/kc" else none
        homedirExpand := fun _ => .error "no home" } = .ok "/tmp/kc" ∧
    findKubeConfig (exampleWorld [] [] []) = .ok "/root/.kube/config" :=
  ⟨((findKubeConfig_spec _).1 "/tmp/kc" (by decide) (by decide)).1,
    ((findKubeConfig_spec (exampleWorld [] [] [])).2 (Or.inl rfl)).1⟩

/-! ## `warmClusterConnection` -/

/-- C5: when `kubernetes.NewForConfig` fails for the config, `warmClusterConnection`
returns at once, whatever events are pending (none at all included), a non-nil
error whose message is `failed to create kube client for context: `, the context
name, `: ` and the cause; it has logged the `warming` line, created its ticker,
and issued no probe. -/
theorem warmClusterConnection_construction_failure (w : World) (context : String)
    (config : RestConfig) (cause : GoError)
    (hfail : w.newForConfig config = .error cause) (events : List LoopEvent) :
    ∃ effs, warmClusterConnection w context config events =
        some (some ("failed to create kube client for context: " ++ context ++ ": " ++ cause),
          effs) ∧
      effs = [.log .info ("warming " ++ context) none, .newTicker 5] ∧
      probeCount effs = 0 := by
  refine ⟨_, ?_, rfl, rfl⟩
  simp [warmClusterConnection, loopEnter, hfail, wrapf]

/-- Witness for C5: the context `b`, whose client cannot be built, with a tick
and a cancellation pending. -/
theorem warmClusterConnection_construction_failure_witness :
    ∃ effs, warmClusterConnection (exampleWorld ["a", "b"] [] ["b"]) "b" ⟨"b"⟩
        [.tick none, .ctxDone] =
        some (some ("failed to create kube client for context: " ++ "b" ++ ": " ++ "bad host"),
          effs) ∧
      effs = [.log .info ("warming " ++ "b") none, .newTicker 5] ∧
      probeCount effs = 0 :=
  warmClusterConnection_construction_failure (exampleWorld ["a", "b"] [] ["b"]) "b" ⟨"b"⟩
    "bad host" rfl [.tick none, .ctxDone]

/-- The `for` loop woken by ticks and then by the cancellation: it returns nil
and has issued one probe per tick. -/
theorem selectLoop_ticks (context : String) (client : Clientset)
    (outcomes : List (Option GoError)) :
    ∃ effs, selectLoop context client (outcomes.map LoopEvent.tick ++ [.ctxDone]) =
        some (none, effs) ∧
      effs.filter Effect.isProbe = List.replicate outcomes.length (.probe context) := by
  induction outcomes with
  | nil => exact ⟨[], rfl, rfl⟩
  | cons o os ih =>
    obtain ⟨effs, hrun, hprobes⟩ := ih
    cases o with
    | none =>
      refine ⟨[.probe context] ++ effs, ?_, ?_⟩
      · simp [selectLoop, loopSelect, hrun]
      · simp [List.filter_cons, Effect.isProbe, hprobes, List.replicate_succ]
    | some err =>
      refine ⟨[.probe context,
        .log .warn ("failed to contact cluster: " ++ context) (some err)] ++ effs, ?_, ?_⟩
      · simp [selectLoop, loopSelect, hrun]
      · simp [List.filter_cons, Effect.isProbe, hprobes, List.replicate_succ]

/-- C6: with a client that was built, for every finite sequence of ticks whose
probes succeed or fail arbitrarily, followed by the cancellation,
`warmClusterConnection` returns nil and has issued exactly one probe per tick;
the probes and the returned value are those of the run in which every probe
succeeds. -/
theorem warmClusterConnection_probe_per_tick (w : World) (context : String)
    (config : RestConfig) (client : Clientset)
    (hok : w.newForConfig config = .ok client) (outcomes : List (Option GoError)) :
    ∃ effs effsOk,
      warmClusterConnection w context config
        (outcomes.map LoopEvent.tick ++ [.ctxDone]) = some (none, effs) ∧
      effs.filter Effect.isProbe = List.replicate outcomes.length (.probe context) ∧
      probeCount effs = outcomes.length ∧
      warmClusterConnection w context config
        ((List.replicate outcomes.length none).map LoopEvent.tick ++ [.ctxDone]) =
        some (none, effsOk) ∧
      effsOk.filter Effect.isProbe = effs.filter Effect.isProbe := by
  obtain ⟨e1, hrun1, hp1⟩ := selectLoop_ticks context client outcomes
  obtain ⟨e2, hrun2, hp2⟩ :=
    selectLoop_ticks context client (List.replicate outcomes.length none)
  refine ⟨[.log .info ("warming " ++ context) none, .newTicker 5] ++ e1,
    [.log .info ("warming " ++ context) none, .newTicker 5] ++ e2, ?_, ?_, ?_, ?_, ?_⟩
  · simp only [warmClusterConnection, loopEnter, hok, hrun1]
  · simp [List.filter_cons, Effect.isProbe, hp1]
  · simp [probeCount, List.filter_cons, Effect.isProbe, hp1]
  · simp only [warmClusterConnection, loopEnter, hok, hrun2]
  · simp [List.filter_cons, Effect.isProbe, hp1, hp2]

/-- Witness for C6: the context `a` with three ticks, the second of which fails. -/
theorem warmClusterConnection_probe_per_tick_witness :
    ∃ effs effsOk,
      warmClusterConnection (exampleWorld ["a"] [] []) "a" ⟨"a"⟩
        ([none, some "timeout", none].map LoopEvent.tick ++ [.ctxDone]) = some (none, effs) ∧
      effs.filter Effect.isProbe = List.replicate [none, some "timeout", none].length
        (.probe "a") ∧
      probeCount effs = [none, some "timeout", none].length ∧
      warmClusterConnection (exampleWorld ["a"] [] []) "a" ⟨"a"⟩
        ((List.replicate [none, some "timeout", none].length none).map LoopEvent.tick ++
          [.ctxDone]) = some (none, effsOk) ∧
      effsOk.filter Effect.isProbe = effs.filter Effect.isProbe :=
  warmClusterConnection_probe_per_tick (exampleWorld ["a"] [] []) "a" ⟨"a"⟩ ⟨⟨"a"⟩⟩
    rfl [none, some "timeout", none]

/-! ## The goroutine of one context -/

/-- C7: whatever `warmClusterConnection` returned (nil or an error), the next step
of the goroutine is possible in every state of a running process: it calls
`wg.Done()` exactly once (the counter drops by one), does not terminate the
process and leaves the other goroutines alone; an error is only logged as a
warning before that; the goroutine has then terminated and takes no further
step. No step of a goroutine calls `wg.Done()` except this one. -/
theorem task_signals_completion_once (w : World) (s : Sys) (i : Nat) (t : Task)
    (err : Option GoError) (hrunning : s.exit = none) (ht : s.tasks[i]? = some t)
    (hpc : t.pc = .calling (.returned err)) :
    ∃ s2, step w s (.task i none) = some s2 ∧
      s2.wg = s.wg - 1 ∧ s2.exit = none ∧ s2.coord = s.coord ∧
      s2.handler = s.handler ∧ s2.cancelled = s.cancelled ∧
      s2.tasks = s.tasks.set i { t with pc := .finished } ∧
      s2.trace = s.trace ++ taskFinish err ∧
      (taskFinish err).count (.wgAdd (-1)) = 1 ∧
      (taskFinish none).count (.wgAdd (-1)) = 1 ∧
      (∀ e ∈ taskFinish err, e.isExit = false) ∧
      (∀ cause, err = some cause → taskFinish err =
        [.log .warn "fatal error warming cluster" (some cause), .wgAdd (-1)]) ∧
      (∀ ev, step w s2 (.task i ev) = none) ∧
      (∀ (c : Bool) (t2 : Task) (ev : Option LoopEvent) (pc : TaskPc) (effs : List Effect),
        taskStep w c t2 ev = some (pc, effs) → Effect.wgAdd (-1) ∈ effs →
          pc = .finished ∧ ∃ e, t2.pc = .calling (.returned e)) := by
  have hlt : i < s.tasks.length := by
    rcases Nat.lt_or_ge i s.tasks.length with h | h
    · exact h
    · rw [List.getElem?_eq_none h] at ht; cases ht
  have hdone : ∀ (c : Bool) (t2 : Task) (ev : Option LoopEvent) (pc : TaskPc)
      (effs : List Effect), taskStep w c t2 ev = some (pc, effs) →
      Effect.wgAdd (-1) ∈ effs → pc = .finished ∧ ∃ e, t2.pc = .calling (.returned e) := by
    intro c t2 ev pc effs hstep hmem
    rcases t2 with ⟨kc, cfg, tpc⟩
    cases ev with
    | none =>
      cases tpc with
      | spawned =>
        simp only [taskStep, Option.some.injEq, Prod.mk.injEq] at hstep
        obtain ⟨-, rfl⟩ := hstep
        simp at hmem
      | finished => simp [taskStep] at hstep
      | calling l =>
        cases l with
        | entry =>
          simp only [taskStep, Option.some.injEq, Prod.mk.injEq] at hstep
          obtain ⟨-, rfl⟩ := hstep
          simp only [loopEnter] at hmem
          split at hmem <;> simp at hmem
        | selecting c2 => simp [taskStep] at hstep
        | returned e =>
          simp only [taskStep, Option.some.injEq, Prod.mk.injEq] at hstep
          exact ⟨hstep.1.symm, e, rfl⟩
    | some ev =>
      cases tpc with
      | spawned => simp [taskStep] at hstep
      | finished => simp [taskStep] at hstep
      | calling l =>
        cases l with
        | entry => simp [taskStep] at hstep
        | returned e => simp [taskStep] at hstep
        | selecting c2 =>
          simp only [taskStep] at hstep
          split at hstep
          · cases hstep
          · simp only [Option.some.injEq, Prod.mk.injEq] at hstep
            obtain ⟨-, rfl⟩ := hstep
            cases ev with
            | ctxDone => simp [loopSelect] at hmem
            | tick o => cases o <;> simp [loopSelect] at hmem
  refine ⟨applyEffects { s with tasks := s.tasks.set i { t with pc := .finished } }
    (taskFinish err), ?_, ?_, ?_, ?_, ?_, ?_, ?_, ?_, ?_, ?_, ?_, ?_, ?_, hdone⟩
  · simp [step, hrunning, ht, taskStep, hpc]
  · cases err <;> simp [taskFinish, applyEffects, applyEffect] <;> rfl
  · cases err <;> simp [taskFinish, applyEffects, applyEffect, hrunning]
  · cases err <;> simp [taskFinish, applyEffects, applyEffect]
  · cases err <;> simp [taskFinish, applyEffects, applyEffect]
  · cases err <;> simp [taskFinish, applyEffects, applyEffect]
  · cases err <;> simp [taskFinish, applyEffects, applyEffect]
  · cases err <;> simp [taskFinish, applyEffects, applyEffect]
  · cases err <;> simp [taskFinish, List.count_cons]
  · simp [taskFinish, List.count_cons]
  · intro e he
    cases err <;> simp [taskFinish] at he <;> rcases he with rfl | rfl <;> rfl
  · rintro cause rfl
    rfl
  · intro ev
    have hexit : (applyEffects { s with tasks := s.tasks.set i { t with pc := .finished } }
        (taskFinish err)).exit = none := by
      cases err <;> simp [taskFinish, applyEffects, applyEffect, hrunning]
    have htasks : (applyEffects { s with tasks := s.tasks.set i { t with pc := .finished } }
        (taskFinish err)).tasks = s.tasks.set i { t with pc := .finished } := by
      cases err <;> simp [taskFinish, applyEffects, applyEffect]
    simp only [step, hexit, htasks, Option.isSome_none, Bool.false_eq_true, if_false,
      List.getElem?_set_self hlt]
    cases ev <;> simp [taskStep]

/-- Witness for C7: the goroutine of context `b`, whose client could not be
built, in a state the process reaches: its step brings the counter from 1 to 0
and the process keeps running. -/
theorem task_signals_completion_once_witness :
    run (exampleWorld ["b"] [] ["b"]) Sys.init
        [.coord, .coord, .coord, .task 0 none, .task 0 none] = some exampleFailedTaskState ∧
    ∃ s2, step (exampleWorld ["b"] [] ["b"]) exampleFailedTaskState (.task 0 none) = some s2 ∧
      s2.wg = 0 ∧ s2.exit = none :=
  ⟨by decide,
    (task_signals_completion_once (exampleWorld ["b"] [] ["b"]) exampleFailedTaskState 0
      ⟨"b", ⟨"b"⟩, .calling (.returned
        (some "failed to create kube client for context: b: bad host"))⟩
      (some "failed to create kube client for context: b: bad host") rfl rfl rfl).imp
      fun _ h => ⟨h.1, h.2.1, h.2.2.1⟩⟩

/-! ## `signalShutdownHandler` -/

/-- Once `cancelFunction()` has been called, no event makes the handler call it
again. -/
theorem handlerRun_cancelling_no_cancel (evs : List HandlerEvent) :
    (handlerRun .cancelling evs).2.count .cancel = 0 ∧
    (handlerRun .forceExit evs).2.count .cancel = 0 := by
  have hexit : ∀ evs : List HandlerEvent, (handlerRun .forceExit evs).2.count .cancel = 0 := by
    intro evs
    induction evs with
    | nil => rfl
    | cons ev evs ih => cases ev <;> simpa [handlerRun, handlerStep] using ih
  refine ⟨?_, hexit evs⟩
  induction evs with
  | nil => rfl
  | cons ev evs ih =>
    cases ev with
    | signal => simpa [handlerRun, handlerStep] using ih
    | deadline => simpa [handlerRun, handlerStep, List.count_cons] using hexit evs

/-- C8: `signalShutdownHandler` is the one-shot machine listening, cancelling with
the deadline armed, force-exit. Having registered for the signals it listens, and
while listening only a signal wakes it; on the signal it calls the cancellation
function and then arms the 5-second timer; while it waits only the deadline wakes
it, and it then logs and exits with status 1; after that it takes no step. No
step leads back to listening. Over any sequence of events the cancellation
function is called at most once, exactly once when a signal is among them, and
not at all before. In the process, the deadline step is possible whatever the
state of the warm loops and of the main goroutine, and sets the exit status 1. -/
theorem signalShutdownHandler_state_machine :
    handlerStep .created none = some (.listening, [.notify]) ∧
    (∀ ev, handlerStep .listening ev ≠ none → ev = some .signal) ∧
    handlerStep .listening (some .signal) = some (.cancelling, [.cancel, .armTimer 5]) ∧
    (∀ ev, handlerStep .cancelling ev ≠ none → ev = some .deadline) ∧
    handlerStep .cancelling (some .deadline) =
      some (.forceExit, [.log .info "shutting down..." none, .exit 1]) ∧
    (∀ ev, handlerStep .forceExit ev = none) ∧
    (∀ pc ev pc2 effs, handlerStep pc ev = some (pc2, effs) →
      (pc2 = .listening → pc = .created) ∧ pc2 ≠ .created) ∧
    (∀ evs, (handlerRun .listening evs).2.count .cancel ≤ 1) ∧
    (∀ evs, HandlerEvent.signal ∈ evs → (handlerRun .listening evs).2.count .cancel = 1) ∧
    (∀ evs, HandlerEvent.signal ∉ evs → handlerRun .listening evs = (.listening, [])) ∧
    (∀ (w : World) (s : Sys), s.exit = none → s.handler = some .cancelling →
      ∃ s2, step w s (.handler (some .deadline)) = some s2 ∧ s2.exit = some 1 ∧
        s2.handler = some .forceExit ∧ s2.tasks = s.tasks ∧ s2.coord = s.coord ∧
        s2.wg = s.wg) := by
  have hcount : ∀ evs : List HandlerEvent,
      (handlerRun .listening evs).2.count .cancel ≤ 1 ∧
      (HandlerEvent.signal ∈ evs → (handlerRun .listening evs).2.count .cancel = 1) ∧
      (HandlerEvent.signal ∉ evs → handlerRun .listening evs = (.listening, [])) := by
    intro evs
    induction evs with
    | nil => exact ⟨by simp [handlerRun], by simp, fun _ => rfl⟩
    | cons ev evs ih =>
      cases ev with
      | signal =>
        have h := (handlerRun_cancelling_no_cancel evs).1
        refine ⟨?_, fun _ => ?_, fun hn => absurd (List.mem_cons_self _ _) hn⟩ <;>
          simp [handlerRun, handlerStep, List.count_cons, h]
      | deadline =>
        refine ⟨?_, fun hm => ?_, fun hn => ?_⟩
        · simpa [handlerRun, handlerStep] using ih.1
        · have hm2 : HandlerEvent.signal ∈ evs := by simpa using hm
          simpa [handlerRun, handlerStep] using ih.2.1 hm2
        · have hn2 : HandlerEvent.signal ∉ evs := fun h => hn (List.mem_cons_of_mem _ h)
          simpa [handlerRun, handlerStep] using ih.2.2 hn2
  refine ⟨rfl, ?_, rfl, ?_, rfl, ?_, ?_, fun evs => (hcount evs).1,
    fun evs => (hcount evs).2.1, fun evs => (hcount evs).2.2, ?_⟩
  · intro ev h
    rcases ev with _ | ev
    · exact absurd rfl h
    · cases ev
      · rfl
      · exact absurd rfl h
  · intro ev h
    rcases ev with _ | ev
    · exact absurd rfl h
    · cases ev
      · exact absurd rfl h
      · rfl
  · intro ev
    rcases ev with _ | ev
    · rfl
    · cases ev <;> rfl
  · intro pc ev pc2 effs h
    cases pc <;> rcases ev with _ | ev <;> try cases ev
    all_goals simp [handlerStep] at h
    all_goals obtain ⟨rfl, -⟩ := h
    all_goals simp
  · intro w s hrun hh
    refine ⟨applyEffects { s with handler := some .forceExit }
      [.log .info "shutting down..." none, .exit 1], ?_, rfl, rfl, rfl, rfl, rfl⟩
    simp [step, hrun, hh, handlerStep]

/-! ## `warming`: the fan-out -/

/-- The main goroutine alone walks the rest of the `range` and reaches
`wg.Wait()`, when the client config of every remaining context can be derived. -/
theorem run_ranging (w : World) (kubeConfig : ApiConfig) (rest : List String) (s : Sys)
    (hexit : s.exit = none) (hcoord : s.coord = .ranging kubeConfig rest)
    (hderive : ∀ kc ∈ rest, ∃ config, getClientConfigWithContext w kubeConfig kc = .ok config) :
    ∃ s2, run w s (List.replicate (rest.length + 1) .coord) = some s2 ∧
      s2.coord = .waiting ∧ s2.exit = none := by
  induction rest generalizing s with
  | nil =>
    refine ⟨applyEffects { s with coord := .waiting } [], ?_, rfl, hexit⟩
    simp [run, step, hexit, hcoord, coordStep]
  | cons kc rest ih =>
    obtain ⟨config, hd⟩ := hderive kc (List.mem_cons_self _ _)
    obtain ⟨s2, hrun, hc2, he2⟩ :=
      ih (applyEffects { s with coord := .ranging kubeConfig rest } [.spawn kc config])
        hexit rfl (fun k hk => hderive k (List.mem_cons_of_mem _ hk))
    refine ⟨s2, ?_, hc2, he2⟩
    have hstep : step w s .coord =
        some (applyEffects { s with coord := .ranging kubeConfig rest } [.spawn kc config]) := by
      simp [step, hexit, hcoord, coordStep, hd]
    simp only [List.length_cons, List.replicate_succ, run, hstep]
    simpa only [List.replicate_succ, run] using hrun

/-- C3: when the kubeconfig loads and the client config of every context can be
derived, the main goroutine reaches `wg.Wait()` by its own steps, `warming` never
ends in a `Fatal` call, and in every state of every interleaving in which the
main goroutine has left the `range`, the goroutines launched are, in order, those
of the context names: each name has exactly one goroutine, which captured that
name and the client config derived from that name. -/
theorem warming_launches_one_loop_per_context (w : World) (kubeConfig : ApiConfig)
    (hload : getKubeConfig w = .ok kubeConfig) (hnodup : kubeConfig.contexts.Nodup)
    (hderive : ∀ kc ∈ kubeConfig.contexts,
      ∃ config, getClientConfigWithContext w kubeConfig kc = .ok config) :
    (∃ s, run w Sys.init (List.replicate (kubeConfig.contexts.length + 3) .coord) = some s ∧
      s.coord = .waiting ∧ s.exit = none) ∧
    (∀ s, Reachable w s → s.coord ≠ .fatal) ∧
    ∀ s, Reachable w s → s.coord = .waiting ∨ s.coord = .joined ∨ s.coord = .returned →
      s.tasks.map Task.kubeContext = kubeConfig.contexts ∧
      (∀ kc ∈ kubeConfig.contexts, (s.tasks.map Task.kubeContext).count kc = 1) ∧
      ∀ t ∈ s.tasks, getClientConfigWithContext w kubeConfig t.kubeContext = .ok t.config := by
  refine ⟨?_, ?_, ?_⟩
  · obtain ⟨s2, hrun, hc2, he2⟩ := run_ranging w kubeConfig kubeConfig.contexts
      (applyEffects { (applyEffects { Sys.init with coord := .loading }
        [.log .info "starting..." none, .spawnHandler]) with
          coord := .ranging kubeConfig kubeConfig.contexts } [])
      rfl rfl hderive
    refine ⟨s2, ?_, hc2, he2⟩
    have h1 : step w Sys.init .coord = some (applyEffects { Sys.init with coord := .loading }
        [.log .info "starting..." none, .spawnHandler]) := rfl
    have h2 : step w (applyEffects { Sys.init with coord := .loading }
        [.log .info "starting..." none, .spawnHandler]) .coord =
        some (applyEffects { (applyEffects { Sys.init with coord := .loading }
          [.log .info "starting..." none, .spawnHandler]) with
            coord := .ranging kubeConfig kubeConfig.contexts } []) := by
      simp [step, applyEffects, applyEffect, Sys.init, coordStep, hload]
    simp only [List.replicate_succ, run, h1, h2]
    simpa only [List.replicate_succ, run] using hrun
  · intro s hreach hfatal
    have hinv := (inv_reachable w s hreach).1
    simp only [CoordInv, hfatal] at hinv
    rcases hinv.2 with ⟨⟨err, herr⟩, -⟩ | ⟨cfg, pre, kc, post, err, hg, hctx, hd, -⟩
    · rw [hload] at herr
      cases herr
    · rw [hload] at hg
      cases hg
      obtain ⟨config, hok⟩ := hderive kc (by simp [hctx])
      rw [hok] at hd
      cases hd
  · intro s hreach hpc
    have hinv := (inv_reachable w s hreach).1
    have hl : LaunchedFor w kubeConfig kubeConfig.contexts s.launches := by
      rcases hpc with h | h | h
      · simp only [CoordInv, h] at hinv
        obtain ⟨cfg, hg, hl⟩ := hinv
        rw [hload] at hg
        cases hg
        exact hl
      · simp only [CoordInv, h] at hinv
        obtain ⟨cfg, hg, hl⟩ := hinv
        rw [hload] at hg
        cases hg
        exact hl
      · simp only [CoordInv, h] at hinv
        obtain ⟨-, cfg, hg, hl⟩ := hinv
        rw [hload] at hg
        cases hg
        exact hl
    have hnames : s.tasks.map Task.kubeContext = kubeConfig.contexts := by
      have h1 := hl.1
      simpa [Sys.launches, List.map_map, Function.comp_def, Task.launch] using h1
    refine ⟨hnames, fun kc hkc => ?_, fun t ht => ?_⟩
    · rw [hnames]
      exact List.count_eq_one_of_mem hnodup hkc
    · exact hl.2 t.launch (List.mem_map_of_mem _ ht)

/-- Witness for C3: the contexts `a` and `b`: after five steps of the main
goroutine alone it is at `wg.Wait()`. -/
theorem warming_launches_one_loop_per_context_witness :
    ∃ s, run (exampleWorld ["a", "b"] [] []) Sys.init (List.replicate (2 + 3) .coord) = some s ∧
      s.coord = .waiting ∧ s.exit = none :=
  (warming_launches_one_loop_per_context (exampleWorld ["a", "b"] [] []) ⟨["a", "b"]⟩ rfl
    (by decide) (fun kc hkc => ⟨⟨kc⟩, by
      have h : kc = "a" ∨ kc = "b" := by simpa using hkc
      rcases h with rfl | rfl <;> rfl⟩)).1

/-! ## `warming`: the startup-fatal errors -/

/-- C4, counterexample: with the contexts `a` and `b` visited in this order and no
client config derivable for `b`, four steps of the main goroutine end in the
`Fatal` call with exit status 1 after the goroutine of `a` has been launched; and
when the goroutine of `a` is scheduled before the main goroutine visits `b`, it
has even issued a probe by the time of the `Fatal` call. -/
theorem warming_fatal_after_launch :
    run (exampleWorld ["a", "b"] ["b"] []) Sys.init [.coord, .coord, .coord, .coord] =
      some exampleFatalState ∧
    exampleFatalState.coord = .fatal ∧ exampleFatalState.exit = some 1 ∧
    exampleFatalState.tasks = [⟨"a", ⟨"a"⟩, .spawned⟩] ∧ exampleFatalState.tasks ≠ [] ∧
    (run (exampleWorld ["a", "b"] ["b"] []) Sys.init
        [.coord, .coord, .coord, .task 0 none, .task 0 none, .task 0 (some (.tick none)),
          .coord]).map (fun s => (s.coord, s.exit, probeCount s.trace)) =
      some (.fatal, some 1, 1) := by
  decide

/-- C4, amended: in every state of every interleaving in which `warming` has ended
in a `Fatal` call, the process has terminated with exit status 1 and takes no
further step, and either the kubeconfig could not be loaded and no goroutine has
been launched, or the derivation failed for one context of the `range` and the
goroutines launched are exactly those of the contexts visited before it, each
with its own derived config: none for the failing context or a later one, and
none at all when the failing context is the first one visited. -/
theorem warming_startup_fatal (w : World) (s : Sys) (hreach : Reachable w s)
    (hfatal : s.coord = .fatal) :
    s.exit = some 1 ∧ (∀ a, step w s a = none) ∧
    (((∃ err, getKubeConfig w = .error err) ∧ s.tasks = []) ∨
      ∃ kubeConfig pre kc post err,
        getKubeConfig w = .ok kubeConfig ∧ kubeConfig.contexts = pre ++ kc :: post ∧
        getClientConfigWithContext w kubeConfig kc = .error err ∧
        s.tasks.map Task.kubeContext = pre ∧
        (∀ t ∈ s.tasks, getClientConfigWithContext w kubeConfig t.kubeContext = .ok t.config) ∧
        (pre = [] → s.tasks = [])) := by
  have hinv := (inv_reachable w s hreach).1
  simp only [CoordInv, hfatal] at hinv
  obtain ⟨hexit, hsf⟩ := hinv
  refine ⟨hexit, fun a => by simp [step, hexit], ?_⟩
  rcases hsf with ⟨herr, hnil⟩ | ⟨cfg, pre, kc, post, err, hg, hctx, hd, hl⟩
  · exact Or.inl ⟨herr, by simpa [Sys.launches] using hnil⟩
  · have hnames : s.tasks.map Task.kubeContext = pre := by
      have h1 := hl.1
      simpa [Sys.launches, List.map_map, Function.comp_def, Task.launch] using h1
    refine Or.inr ⟨cfg, pre, kc, post, err, hg, hctx, hd, hnames,
      fun t ht => hl.2 t.launch (List.mem_map_of_mem _ ht), fun hpre => ?_⟩
    rw [hpre] at hnames
    simpa using hnames

/-- Witness for C4, amended: the state of the counterexample. -/
theorem warming_startup_fatal_witness :
    exampleFatalState.exit = some 1 ∧
    (∀ a, step (exampleWorld ["a", "b"] ["b"] []) exampleFatalState a = none) :=
  have h := warming_startup_fatal (exampleWorld ["a", "b"] ["b"] []) exampleFatalState
    ⟨[.coord, .coord, .coord, .coord], by decide⟩ rfl
  ⟨h.1, h.2.1⟩

/-! ## `warming` with no context -/

/-- With a kubeconfig that holds no context, no goroutine is ever launched and
the counter stays zero. -/
theorem zero_contexts_inv (w : World) (kubeConfig : ApiConfig)
    (hload : getKubeConfig w = .ok kubeConfig) (hempty : kubeConfig.contexts = [])
    (s : Sys) (hreach : Reachable w s) :
    s.tasks = [] ∧ s.wg = 0 ∧ s.coord ≠ .fatal ∧
    ∀ cfg rest, s.coord = .ranging cfg rest → rest = [] := by
  obtain ⟨hinv, hwg⟩ := inv_reachable w s hreach
  have htasks : s.tasks = [] := by
    cases hc : s.coord with
    | start => simpa [CoordInv, hc, Sys.launches] using hinv
    | loading => simpa [CoordInv, hc, Sys.launches] using hinv
    | ranging cfg rest =>
      simp only [CoordInv, hc] at hinv
      obtain ⟨hg, pre, hpre, hl⟩ := hinv
      rw [hload] at hg
      cases hg
      rw [hempty] at hpre
      have hp : pre = [] := (List.append_eq_nil.mp hpre.symm).1
      have h1 := hl.1
      rw [hp] at h1
      simpa [Sys.launches] using h1
    | waiting =>
      simp only [CoordInv, hc] at hinv
      obtain ⟨cfg, hg, hl⟩ := hinv
      rw [hload] at hg
      cases hg
      have h1 := hl.1
      rw [hempty] at h1
      simpa [Sys.launches] using h1
    | joined =>
      simp only [CoordInv, hc] at hinv
      obtain ⟨cfg, hg, hl⟩ := hinv
      rw [hload] at hg
      cases hg
      have h1 := hl.1
      rw [hempty] at h1
      simpa [Sys.launches] using h1
    | returned =>
      simp only [CoordInv, hc] at hinv
      obtain ⟨-, cfg, hg, hl⟩ := hinv
      rw [hload] at hg
      cases hg
      have h1 := hl.1
      rw [hempty] at h1
      simpa [Sys.launches] using h1
    | fatal =>
      simp only [CoordInv, hc] at hinv
      rcases hinv.2 with ⟨-, hnil⟩ | ⟨cfg, pre, kc, post, err, hg, hctx, -, -⟩
      · simpa [Sys.launches] using hnil
      · rw [hload] at hg
        cases hg
        rw [hempty] at hctx
        simp at hctx
  refine ⟨htasks, hwg htasks, ?_, ?_⟩
  · intro hc
    simp only [CoordInv, hc] at hinv
    rcases hinv.2 with ⟨⟨err, herr⟩, -⟩ | ⟨cfg, pre, kc, post, err, hg, hctx, -, -⟩
    · rw [hload] at herr
      cases herr
    · rw [hload] at hg
      cases hg
      rw [hempty] at hctx
      simp at hctx
  · intro cfg rest hc
    simp only [CoordInv, hc] at hinv
    obtain ⟨hg, pre, hpre, -⟩ := hinv
    rw [hload] at hg
    cases hg
    rw [hempty] at hpre
    exact (List.append_eq_nil.mp hpre.symm).2

/-- C10: with a kubeconfig that loads and holds no context, five steps of the main
goroutine alone run `main` from start to end: nothing is launched, `wg.Wait()`
returns, `shutting down...` is logged and the process exits with status 0, no
timer having been armed. In every state of every interleaving nothing has been
launched and the counter is zero, so that `wg.Wait()` returns as soon as the main
goroutine is at it; and from every state of a running process (a signal received
or not) the main goroutine alone, in at most five steps and with no step of the
handler in between, ends the process with status 0 after logging `shutting down...`. -/
theorem warming_zero_contexts (w : World) (kubeConfig : ApiConfig)
    (hload : getKubeConfig w = .ok kubeConfig) (hempty : kubeConfig.contexts = []) :
    (∃ s, run w Sys.init [.coord, .coord, .coord, .coord, .coord] = some s ∧
      s.coord = .returned ∧ s.exit = some 0 ∧ s.tasks = [] ∧
      s.trace = [.log .info "starting..." none, .spawnHandler,
        .log .info "shutting down..." none, .exit 0]) ∧
    (∀ s, Reachable w s → s.tasks = [] ∧ s.wg = 0 ∧ s.coord ≠ .fatal) ∧
    (∀ s, Reachable w s → s.exit = none → s.coord = .waiting →
      ∃ s2, step w s .coord = some s2 ∧ s2.coord = .joined) ∧
    (∀ s, Reachable w s → s.exit = none →
      ∃ n s2, n ≤ 5 ∧ run w s (List.replicate n .coord) = some s2 ∧
        s2.coord = .returned ∧ s2.exit = some 0 ∧ s2.tasks = [] ∧
        [Effect.log .info "shutting down..." none, Effect.exit 0] <:+ s2.trace) := by
  refine ⟨?_, ?_, ?_, ?_⟩
  · refine ⟨⟨.returned, some .created, [], 0, false, some 0,
      [.log .info "starting..." none, .spawnHandler, .log .info "shutting down..." none,
        .exit 0]⟩, ?_, rfl, rfl, rfl, rfl⟩
    simp [run, step, coordStep, applyEffects, applyEffect, Sys.init, hload, hempty]
  · intro s hreach
    obtain ⟨h1, h2, h3, -⟩ := zero_contexts_inv w kubeConfig hload hempty s hreach
    exact ⟨h1, h2, h3⟩
  · intro s hreach hexit hc
    obtain ⟨-, hwg, -, -⟩ := zero_contexts_inv w kubeConfig hload hempty s hreach
    refine ⟨applyEffects { s with coord := .joined } [], ?_, rfl⟩
    simp [step, hexit, hc, coordStep, hwg]
  · intro s hreach hexit
    obtain ⟨htasks, hwg, hnf, hrest⟩ := zero_contexts_inv w kubeConfig hload hempty s hreach
    have hinv := (inv_reachable w s hreach).1
    rcases s with ⟨coord, handler, tasks, wg, cancelled, exit, trace⟩
    simp only at hexit htasks hwg hnf hrest
    subst hexit htasks hwg
    cases coord with
    | start =>
      refine ⟨5, ⟨.returned, some .created, [], 0, cancelled, some 0,
        trace ++ [.log .info "starting..." none, .spawnHandler,
          .log .info "shutting down..." none, .exit 0]⟩, le_refl _, ?_, rfl, rfl, rfl, ?_⟩
      · simp [run, step, coordStep, applyEffects, applyEffect, hload, hempty]
      · exact ⟨trace ++ [.log .info "starting..." none, .spawnHandler], by simp⟩
    | loading =>
      refine ⟨4, ⟨.returned, handler, [], 0, cancelled, some 0,
        trace ++ [.log .info "shutting down..." none, .exit 0]⟩,
        by decide, ?_, rfl, rfl, rfl, ?_⟩
      · simp [run, step, coordStep, applyEffects, applyEffect, hload, hempty]
      · exact ⟨trace, rfl⟩
    | ranging cfg rest =>
      have hr := hrest cfg rest rfl
      subst hr
      refine ⟨3, ⟨.returned, handler, [], 0, cancelled, some 0,
        trace ++ [.log .info "shutting down..." none, .exit 0]⟩,
        by decide, ?_, rfl, rfl, rfl, ?_⟩
      · simp [run, step, coordStep, applyEffects, applyEffect]
      · exact ⟨trace, rfl⟩
    | waiting =>
      refine ⟨2, ⟨.returned, handler, [], 0, cancelled, some 0,
        trace ++ [.log .info "shutting down..." none, .exit 0]⟩,
        by decide, ?_, rfl, rfl, rfl, ?_⟩
      · simp [run, step, coordStep, applyEffects, applyEffect]
      · exact ⟨trace, rfl⟩
    | joined =>
      refine ⟨1, ⟨.returned, handler, [], 0, cancelled, some 0,
        trace ++ [.log .info "shutting down..." none, .exit 0]⟩,
        by decide, ?_, rfl, rfl, rfl, ?_⟩
      · simp [run, step, coordStep, applyEffects, applyEffect]
      · exact ⟨trace, rfl⟩
    | returned =>
      simp only [CoordInv] at hinv
      cases hinv.1
    | fatal => exact absurd rfl hnf

/-- Witness for C10: the kubeconfig with no context; the state reached once a
signal has been received and the cancellation function called. -/
theorem warming_zero_contexts_witness :
    ∃ n s2, n ≤ 5 ∧
      run (exampleWorld [] [] [])
        { coord := .loading, handler := some .cancelling, tasks := [], wg := 0,
          cancelled := true, exit := none,
          trace := [.log .info "starting..." none, .spawnHandler, .notify, .cancel,
            .armTimer 5] }
        (List.replicate n .coord) = some s2 ∧
      s2.coord = .returned ∧ s2.exit = some 0 ∧ s2.tasks = [] ∧
      [Effect.log .info "shutting down..." none, Effect.exit 0] <:+ s2.trace :=
  (warming_zero_contexts (exampleWorld [] [] []) ⟨[]⟩ rfl rfl).2.2.2 _
    ⟨[.coord, .handler none, .handler (some .signal)], by decide⟩ rfl

/-! ## `warming`: the registration with the `WaitGroup` and the join -/

/-- C1, the code at the context set `{a}`: no step of the main goroutine calls
`wg.Add`, whatever the world; after the `go` statement for `a` (three steps of the
main goroutine) the goroutine of `a` exists and can run while the counter is
still 0; the registration `wg.Add(1)` is the first step of that goroutine itself,
and comes after the `go` statement in the sequence of effects. -/
theorem warming_registers_inside_goroutine :
    (∀ (w : World) (wg : Int) (pc pc2 : CoordPc) (effs : List Effect),
      coordStep w wg pc = some (pc2, effs) → ∀ delta, Effect.wgAdd delta ∉ effs) ∧
    (run (exampleWorld ["a"] [] []) Sys.init [.coord, .coord, .coord]).map
        (fun s => (s.tasks, s.wg, s.trace)) =
      some ([⟨"a", ⟨"a"⟩, .spawned⟩], 0,
        [.log .info "starting..." none, .spawnHandler, .spawn "a" ⟨"a"⟩]) ∧
    taskStep (exampleWorld ["a"] [] []) false ⟨"a", ⟨"a"⟩, .spawned⟩ none =
      some (.calling .entry, [.wgAdd 1]) ∧
    (run (exampleWorld ["a"] [] []) Sys.init [.coord, .coord, .coord, .task 0 none]).map
        (fun s => (s.tasks, s.wg, s.trace)) =
      some ([⟨"a", ⟨"a"⟩, .calling .entry⟩], 1,
        [.log .info "starting..." none, .spawnHandler, .spawn "a" ⟨"a"⟩, .wgAdd 1]) := by
  refine ⟨?_, by decide, rfl, by decide⟩
  intro w wg pc pc2 effs hstep delta hmem
  cases pc with
  | start =>
    simp only [coordStep, Option.some.injEq, Prod.mk.injEq] at hstep
    obtain ⟨-, rfl⟩ := hstep
    simp at hmem
  | loading =>
    simp only [coordStep] at hstep
    split at hstep <;> simp only [Option.some.injEq, Prod.mk.injEq] at hstep <;>
      obtain ⟨-, rfl⟩ := hstep <;> simp at hmem
  | ranging kubeConfig rest =>
    cases rest with
    | nil =>
      simp only [coordStep, Option.some.injEq, Prod.mk.injEq] at hstep
      obtain ⟨-, rfl⟩ := hstep
      simp at hmem
    | cons kc rest =>
      simp only [coordStep] at hstep
      split at hstep <;> simp only [Option.some.injEq, Prod.mk.injEq] at hstep <;>
        obtain ⟨-, rfl⟩ := hstep <;> simp at hmem
  | waiting =>
    by_cases hz : wg = 0
    · simp only [coordStep, hz, if_true, Option.some.injEq, Prod.mk.injEq] at hstep
      obtain ⟨-, rfl⟩ := hstep
      simp at hmem
    · simp [coordStep, hz] at hstep
  | joined =>
    simp only [coordStep, Option.some.injEq, Prod.mk.injEq] at hstep
    obtain ⟨-, rfl⟩ := hstep
    simp at hmem
  | returned => simp [coordStep] at hstep
  | fatal => simp [coordStep] at hstep

/-- C2, the code at the context set `{a}`: when the main goroutine runs on before
the goroutine of `a` is scheduled, `wg.Wait()` finds the counter at 0 and returns
(five steps of the main goroutine) although the goroutine of `a` has not
terminated, not even started; one step more and `main` has returned, the process
exiting with status 0 without a single probe. Had the goroutine run its
`wg.Add(1)` before the main goroutine reached `wg.Wait()`, the join would
block. -/
theorem warming_join_returns_before_loop_ends :
    (run (exampleWorld ["a"] [] []) Sys.init [.coord, .coord, .coord, .coord, .coord]).map
        (fun s => (s.coord, s.tasks, s.wg, s.exit)) =
      some (.joined, [⟨"a", ⟨"a"⟩, .spawned⟩], 0, none) ∧
    (run (exampleWorld ["a"] [] []) Sys.init
        [.coord, .coord, .coord, .coord, .coord, .coord]).map
        (fun s => (s.coord, s.tasks, s.exit, probeCount s.trace)) =
      some (.returned, [⟨"a", ⟨"a"⟩, .spawned⟩], some 0, 0) ∧
    (run (exampleWorld ["a"] [] []) Sys.init
        [.coord, .coord, .coord, .task 0 none, .coord]).map
        (fun s => (s.coord, s.wg)) = some (.waiting, 1) ∧
    run (exampleWorld ["a"] [] []) Sys.init
        [.coord, .coord, .coord, .task 0 none, .coord, .coord] = none := by
  decide

end WarmWaters
